import Mathlib

/-!
Verification of the witcher error-chain engine against its specification.

The development shallowly embeds the Rust sources:
  - src/backtrace.rs : `Frame`, `is_dependency`, `simple_path`, `new`
  - src/error.rs     : `Error` (chain node), `raw`, `wrapr`, `name`, `ext`,
                       `last`, the Display and Debug renderings
  - src/wrapper.rs   : `retry`, `retry_on`

Strings stay Lean `String`s; colorization is the identity (the `gory`
`.red()` / `.cyan()` calls are no-ops when color is disabled, which is an
external-collaborator concern out of scope per the spec); the raw
backtrace, the current working directory and Rust type-name strings are
inputs supplied by the platform, so they appear as parameters.
-/

namespace Witcher

/-- One simplified stack entry, from `Frame` in src/backtrace.rs:
`symbol` (demangled name or sentinel), `filename` (simplified path),
optional line and column numbers. -/
structure Frame where
  symbol : String
  filename : String
  lineno : Option Nat
  column : Option Nat
deriving DecidableEq, Repr

/-- A `dyn StdError` trait object as this program uses it: either the
crate's own `Error` chain node (fields `msg`, `type_name`, `backtrace`,
`inner` from the struct in src/error.rs) or an external error satisfying
the minimal error contract, i.e. a display string plus an optional
nested source. -/
inductive StdError where
  | werr (msg : String) (type_name : String) (backtrace : List Frame) (inner : Option StdError)
  | ext (display : String) (src : Option StdError)

namespace StdError

/-- `StdError::source`: the `Error` impl returns `inner`; an external
error exposes its own nested source. -/
def source : StdError → Option StdError
  | .werr _ _ _ inner => inner
  | .ext _ src => src

/-- `to_string()` through the non-alternate Display impl: a chain node
displays only its `msg` (src/error.rs line 266); an external error
displays its own display string. -/
def toString : StdError → String
  | .werr msg _ _ _ => msg
  | .ext d _ => d

/-- `err.is::<Error>()`: whether the trait object's concrete type is the
crate's `Error`. -/
def isWitcherError : StdError → Bool
  | .werr _ _ _ _ => true
  | .ext _ _ => false

/-- The `msg` field of a chain node (for an external error, its display
string, which is what the Display-alternate loop falls back to). -/
def msg : StdError → String
  | .werr m _ _ _ => m
  | .ext d _ => d

/-- The `backtrace` field of a chain node (external errors carry none). -/
def backtrace : StdError → List Frame
  | .werr _ _ bt _ => bt
  | .ext _ _ => []

/-- The `type_name` field of a chain node. -/
def type_name : StdError → String
  | .werr _ tn _ _ => tn
  | .ext _ _ => ""

end StdError

/-- `ERROR_TYPE` in src/error.rs. -/
def ERROR_TYPE : String := "witcher::Error"

/-- `STDERROR_TYPE` in src/error.rs. -/
def STDERROR_TYPE : String := "std::error::Error"

/-- `LONG_ERROR_TYPE` in src/error.rs. -/
def LONG_ERROR_TYPE : String := "witcher::error::Error"

/-- `trim_start_matches("dyn ")`: repeatedly strip a leading `dyn `
from the character list. -/
def dropDyn : List Char → List Char
  | 'd' :: 'y' :: 'n' :: ' ' :: rest => dropDyn rest
  | l => l

namespace Error

/-- `Error::name` from src/error.rs: take the type-name string, strip
leading `&` reference sigils (`trim_start_matches('&')`), strip leading
`dyn ` markers, keep only the part before the first `<` (dropping the
generic-parameter suffix, `split('<').next()`), and finally substitute
the short `witcher::Error` label for the crate's own long path. -/
def name (s : String) : String :=
  let n : List Char := s.data.dropWhile (fun c => c = '&')
  let n : List Char := dropDyn n
  let n : String := ⟨n.takeWhile (fun c => c ≠ '<')⟩
  if n = LONG_ERROR_TYPE then ERROR_TYPE else n

/-- `Error::raw(msg)`: an origin node with the canonical self label and
no cause; the captured backtrace is the platform-supplied `bt`. -/
def raw (msg : String) (bt : List Frame) : StdError :=
  .werr msg ERROR_TYPE bt none

/-- `Error::wrapr(err, msg)`: a wrap node whose `type_name` is
`Error::name` applied to the cause's type-name string `tn` (the source
passes `&err`, so `tn` stands for `std::any::type_name::<&E>()`), and
whose `inner` owns the cause. -/
def wrapr (tn : String) (msg : String) (bt : List Frame) (err : StdError) : StdError :=
  .werr msg (Error.name tn) bt (some err)

end Error

/-- `Error::ext` from src/error.rs: walk the source chain; each chain
node met becomes the current candidate; stop (keeping the current
candidate) at the first cause that is not a chain node, or when the
chain ends. The loop `while let Some(err) = source` with its
`if !err.is::<Error>() break` is rendered as structural recursion. -/
def Error.ext : StdError → StdError
  | .werr _ _ _ (some err) =>
      if err.isWitcherError then Error.ext err else err
  | .ext _ (some err) =>
      if err.isWitcherError then Error.ext err else err
  | e => e

/-- `Error::last` from src/error.rs: follow every source link (through
chain nodes and external errors alike) to the terminal value; a node
without a source is returned itself. -/
def Error.last : StdError → StdError
  | .werr _ _ _ (some err) => Error.last err
  | .ext _ (some err) => Error.last err
  | e => e

/-- Whether every link of the cause chain is a chain node (no external
cause anywhere). Used to state what `Error::ext` does on purely
internal chains. -/
def allInternal : StdError → Bool
  | .werr _ _ _ none => true
  | .werr _ _ _ (some err) => allInternal err
  | .ext _ _ => false

/-- `buf.ends_with('\n')` from the Display-alternate loop: the last
character of the buffer is a newline. -/
def endsWithNl (s : String) : Bool :=
  s.data.getLast? == some '\n'

/-- The `while let Some(stderr) = source` loop of the Display-alternate
impl (src/error.rs lines 274-285): append a newline unless the buffer
already ends with one, then `" cause: "`, then the cause's message (a
chain node's `msg` when the downcast succeeds, otherwise the external
error's display string), and continue with the cause's own source. -/
def displayAltLoop : String → Option StdError → String
  | buf, none => buf
  | buf, some (.werr m _ _ inner) =>
      displayAltLoop ((if endsWithNl buf then buf else buf ++ "\n") ++ " cause: " ++ m) inner
  | buf, some (.ext d src) =>
      displayAltLoop ((if endsWithNl buf then buf else buf ++ "\n") ++ " cause: " ++ d) src

/-- The Summarized rendering: the alternate (`{:#}`) Display impl.
Starts the buffer with `" error: "` plus the outermost message and runs
the cause loop over the chain. -/
def displayAlt (e : StdError) : String :=
  displayAltLoop (" error: " ++ e.msg) e.source

/-- The messages the Display-alternate loop prints, one per cause link,
outer to inner: a chain node contributes its `msg`, an external error
its display string. -/
def causeMsgs : Option StdError → List String
  | none => []
  | some (.werr m _ _ inner) => m :: causeMsgs inner
  | some (.ext d src) => d :: causeMsgs src

/-- The text the cause loop appends for a list of cause messages: one
`"\n cause: "`-prefixed segment per cause link, outer to inner. -/
def joinCauses : List String → String
  | [] => ""
  | m :: rest => "\n cause: " ++ m ++ joinCauses rest

/-- The three-node internal chain of the spec's end-to-end scenario:
origin `root`, wrapped with `ctx1`, wrapped again with `ctx2` (each
wrap passes `&Error`, whose type name normalizes to the canonical
label). Backtraces are empty, which is what capture yields when
backtraces are disabled. -/
def scenarioChain : StdError :=
  Error.wrapr "&witcher::error::Error" "ctx2" []
    (Error.wrapr "&witcher::error::Error" "ctx1" [] (Error.raw "root" []))

/-- The two-node internal chain used to separate `Error::ext`'s actual
behaviour from the claimed one: `ctx1` wrapping the origin `root`. -/
def twoNodeChain : StdError :=
  Error.wrapr "&witcher::error::Error" "ctx1" [] (Error.raw "root" [])

/-- `result.is_err()` on the embedded `Result<T, E>`; `Except ε α` with
`Except.error` playing `Err` and `Except.ok` playing `Ok`. -/
def isErr {ε α : Type} : Except ε α → Bool
  | .error _ => true
  | .ok _ => false

/-- Model of `std::any::TypeId`: an opaque tag with one value per
concrete type, compared for equality only. -/
abbrev TypeId := Nat

namespace Wrapper

/-- The loop of `Wrapper::retry` (src/wrapper.rs lines 57-68):
`while retries < max && result.is_err() { retries += 1; result = f(retries) }`.
`left` is the remaining budget `max - retries` (so the guard
`retries < max` is `left > 0`) and `retries` counts invocations so far;
the attempt number passed to `f` is `retries + 1`. -/
def retryGo {ε α : Type} (f : Nat → Except ε α) : Nat → Nat → Except ε α → Except ε α
  | 0, _, result => result
  | left + 1, retries, result =>
      if isErr result then retryGo f left (retries + 1) (f (retries + 1)) else result

/-- `Wrapper::retry(self, max, f)`: run the loop starting from the
given result with zero retries taken. -/
def retry {ε α : Type} (result : Except ε α) (max : Nat) (f : Nat → Except ε α) : Except ε α :=
  retryGo f max 0 result

/-- Instrumentation of the same `retry` loop recording, in order, the
attempt numbers passed to `f` (used to state how often the operation is
invoked). -/
def retryCallsGo {ε α : Type} (f : Nat → Except ε α) : Nat → Nat → Except ε α → List Nat
  | 0, _, _ => []
  | left + 1, retries, result =>
      if isErr result then
        (retries + 1) :: retryCallsGo f left (retries + 1) (f (retries + 1))
      else []

/-- The attempt numbers `Wrapper::retry(self, max, f)` invokes `f` with. -/
def retryCalls {ε α : Type} (result : Except ε α) (max : Nat) (f : Nat → Except ε α) : List Nat :=
  retryCallsGo f max 0 result

/-- The loop of `Wrapper::retry_on` (src/wrapper.rs lines 70-86): same
as `retry`, but the guard is
`match result { Ok(_) => false, Err(_) => TypeId::of::<E>() == id }`.
`eid` stands for `TypeId::of::<E>()` — the type id of the result's
static error type `E`, which is also every failure value's concrete
type. -/
def retryOnGo {ε α : Type} (eid id : TypeId) (f : Nat → Except ε α) :
    Nat → Nat → Except ε α → Except ε α
  | 0, _, result => result
  | left + 1, retries, result =>
      if (match result with | .ok _ => false | .error _ => eid == id) then
        retryOnGo eid id f left (retries + 1) (f (retries + 1))
      else result

/-- `Wrapper::retry_on(self, max, id, f)`; `eid` is `TypeId::of::<E>()`
as above. -/
def retry_on {ε α : Type} (result : Except ε α) (max : Nat) (eid id : TypeId)
    (f : Nat → Except ε α) : Except ε α :=
  retryOnGo eid id f max 0 result

/-- Instrumentation of the `retry_on` loop recording the attempt
numbers passed to `f`. -/
def retryOnCallsGo {ε α : Type} (eid id : TypeId) (f : Nat → Except ε α) :
    Nat → Nat → Except ε α → List Nat
  | 0, _, _ => []
  | left + 1, retries, result =>
      if (match result with | .ok _ => false | .error _ => eid == id) then
        (retries + 1) :: retryOnCallsGo eid id f left (retries + 1) (f (retries + 1))
      else []

/-- The attempt numbers `Wrapper::retry_on(self, max, id, f)` invokes
`f` with. -/
def retryOnCalls {ε α : Type} (result : Except ε α) (max : Nat) (eid id : TypeId)
    (f : Nat → Except ε α) : List Nat :=
  retryOnCallsGo eid id f max 0 result

end Wrapper

/-- The spec's "reference/pointer sigils stripped" step, matching the
code's `trim_start_matches('&')`. -/
def stripRefSigils (s : String) : String :=
  ⟨s.data.dropWhile (fun c => c = '&')⟩

/-- The spec's "generic any-error cause" marker removal: the code's
`trim_start_matches("dyn ")`. -/
def stripDynMarker (s : String) : String :=
  ⟨dropDyn s.data⟩

/-- The spec's "generic parameter suffixes stripped" step: the code's
`split('<').next()`. -/
def stripGenericSuffix (s : String) : String :=
  ⟨s.data.takeWhile (fun c => c ≠ '<')⟩

/-- The spec's "canonical short name substituted" step (also covering
its "namespace separators collapsed" phrasing): the crate's own long
path collapses to the short `witcher::Error` label. -/
def canonicalShortName (s : String) : String :=
  if s = LONG_ERROR_TYPE then ERROR_TYPE else s

/-- Modelled from the spec: the §3 `type_label` normalization pipeline,
assembled from its named steps, to be compared with `Error::name`. -/
def normalizeSpec (s : String) : String :=
  canonicalShortName (stripGenericSuffix (stripDynMarker (stripRefSigils s)))

/-- `DEPENDENCY_FILE_PREFIXES` from src/backtrace.rs. -/
def DEPENDENCY_FILE_PREFIXES : List String :=
  ["/rustc/", "src/libstd/", "src/libpanic_unwind/", "src/libtest/"]

/-- `DEPENDENCY_FILE_CONTAINS` from src/backtrace.rs. -/
def DEPENDENCY_FILE_CONTAINS : List String :=
  ["/.cargo/registry/src/"]

/-- `DEPENDENCY_SYM_PREFIXES` from src/backtrace.rs. -/
def DEPENDENCY_SYM_PREFIXES : List String :=
  ["std::", "core::", "witcher::error::", "<witcher::error::", "witcher::backtrace::",
   "backtrace::backtrace::", "_rust_begin_unwind", "color_traceback::", "__rust_",
   "___rust_", "__pthread", "_main", "main", "__scrt_common_main_seh",
   "BaseThreadInitThunk", "_start", "__libc_start_main", "start_thread", "__GI__"]

/-- `DEPENDENCY_SYM_CONTAINS` from src/backtrace.rs. -/
def DEPENDENCY_SYM_CONTAINS : List String :=
  ["as witcher::wrapper::Wrapper"]

/-- `str::starts_with` on the character lists. -/
def strStarts (p s : String) : Bool :=
  p.data.isPrefixOf s.data

/-- Substring search: does `p` occur as a contiguous run starting at
some position of the list? -/
def hasSub (p : List Char) : List Char → Bool
  | [] => p.isEmpty
  | c :: rest => p.isPrefixOf (c :: rest) || hasSub p rest

/-- `str::contains` (substring containment) on the character lists. -/
def strHas (p s : String) : Bool :=
  hasSub p.data s.data

/-- `Frame::is_dependency` from src/backtrace.rs: the symbol matches a
configured prefix or substring, or the filename matches a configured
prefix or substring. -/
def Frame.is_dependency (fr : Frame) : Bool :=
  DEPENDENCY_SYM_PREFIXES.any (fun x => strStarts x fr.symbol)
  || DEPENDENCY_SYM_CONTAINS.any (fun x => strHas x fr.symbol)
  || DEPENDENCY_FILE_PREFIXES.any (fun x => strStarts x fr.filename)
  || DEPENDENCY_FILE_CONTAINS.any (fun x => strHas x fr.filename)

/-- The frame-selection logic of `Error::write_frames` (src/error.rs
lines 164-179): when `fullstack` is false, keep only non-dependency
frames and, when a wrapping parent exists, truncate with
`take(len - plen)` where `plen` is the parent's non-dependency frame
count; when `fullstack` is true, keep every frame unfiltered. The
subtraction `len - plen` is unguarded `usize` arithmetic, so `none`
models the debug-build underflow panic when `len < plen`. -/
def framesSelection (bt : List Frame) (parent : Option (List Frame)) (fullstack : Bool) :
    Option (List Frame) :=
  if fullstack = false then
    let frames := bt.filter (fun x => !x.is_dependency)
    match parent with
    | some pbt =>
        let plen := (pbt.filter (fun x => !x.is_dependency)).length
        if frames.length < plen then none
        else some (frames.take (frames.length - plen))
    | none => some frames
  else
    some bt

/-- `Error::write_frames` at the chain-node level: select this node's
frames against the wrapping parent's backtrace. -/
def Error.write_frames (e : StdError) (parent : Option StdError) (fullstack : Bool) :
    Option (List Frame) :=
  framesSelection e.backtrace (parent.map StdError.backtrace) fullstack

/-- A node's non-dependency frame count, the `len`/`plen` quantities of
`Error::write_frames`. -/
def nondepCount (e : StdError) : Nat :=
  (e.backtrace.filter (fun x => !x.is_dependency)).length

/-- The chain-node collection of the Debug impl (src/error.rs lines
223-234): push self, then follow sources while they downcast to
`Error`, stopping at the first external cause. Outer-to-inner order. -/
def chainNodes : StdError → List StdError
  | .werr m t b (some (.werr m2 t2 b2 i2)) =>
      StdError.werr m t b (some (.werr m2 t2 b2 i2)) :: chainNodes (.werr m2 t2 b2 i2)
  | e => [e]

/-- Whether every `write_frames` call of the Debug rendering (without
the fullstack toggle) avoids the `len - plen` underflow. The list is
the Debug impl's reversed (innermost-first) node vector; each node's
parent is the next entry. -/
def debugWriteOk : List StdError → Bool
  | e :: p :: rest => (Error.write_frames e (some p) false).isSome && debugWriteOk (p :: rest)
  | [e] => (Error.write_frames e none false).isSome
  | [] => true

/-- Whether the whole Debug rendering of a chain (without the fullstack
toggle) is free of the frame-count underflow. -/
def debugRenderOk (e : StdError) : Bool :=
  debugWriteOk ((chainNodes e).reverse)

/-- `Path::display` on the component-list model of paths: components
joined by the platform separator. -/
def pathDisplay (p : List String) : String :=
  String.intercalate "/" p

/-- `simple_path` from src/backtrace.rs: with a file path present,
strip the current working directory as a component-prefix when it is
one (yielding the relative remainder), else keep the full path; with no
file path, the `<unknown>` sentinel. `cwd = none` models
`std::env::current_dir()` failing. -/
def simple_path (cwd : Option (List String)) (filename : Option (List String)) : String :=
  match filename with
  | some file =>
      match cwd with
      | some c => if c.isPrefixOf file then pathDisplay (file.drop c.length) else pathDisplay file
      | none => pathDisplay file
  | none => "<unknown>"

/-- The per-symbol frame construction of `backtrace::new`
(src/backtrace.rs lines 46-55): a missing symbol name becomes the
`<unknown>` sentinel, the filename goes through `simple_path`, line and
column are carried over. -/
def backtraceFrame (symname : Option String) (cwd : Option (List String))
    (file : Option (List String)) (lineno column : Option Nat) : Frame :=
  { symbol := match symname with
      | some n => n
      | none => "<unknown>",
    filename := simple_path cwd file,
    lineno := lineno,
    column := column }

/-- A caller-code frame (matches no dependency prefix or substring). -/
def appFrameOuter : Frame :=
  { symbol := "app::run", filename := "app/main.rs", lineno := some 10, column := some 5 }

/-- A second caller-code frame, deeper in the call stack. -/
def appFrameInner : Frame :=
  { symbol := "app::deeper", filename := "app/deep.rs", lineno := some 42, column := none }

/-- A runtime frame: its symbol starts with the configured dependency
prefix `std::`. -/
def depFrame : Frame :=
  { symbol := "std::rt::lang_start", filename := "/rustc/abc/library/std/src/rt.rs",
    lineno := some 1, column := none }

end Witcher

namespace Witcher

/-- C2: for every error chain, whatever its depth and whether its inner
causes are chain nodes or external errors, the Terse rendering (the
default Display / `to_string`) is exactly the outermost node's message. -/
theorem terse_is_outermost_message :
    ∀ (msg tn : String) (bt : List Frame) (cause : StdError),
      StdError.toString (Error.wrapr tn msg bt cause) = msg
      ∧ StdError.toString (Error.raw msg bt) = msg := by
  intro msg tn bt cause
  exact ⟨rfl, rfl⟩

/-- C6: `innermost_cause` (`Error::last`) walks the entire cause chain,
through chain-node and external links alike, to the terminal value: the
returned node has no further source, a node without a source is
returned itself, and a node with a source delegates to that source. -/
theorem innermost_cause_terminal :
    (∀ e : StdError, (Error.last e).source = none)
    ∧ (∀ e : StdError, e.source = none → Error.last e = e)
    ∧ (∀ e s : StdError, e.source = some s → Error.last e = Error.last s) := by
  refine ⟨?_, ?_, ?_⟩
  · intro e
    induction e using Error.last.induct with
    | case1 m t b err ih => simpa [Error.last] using ih
    | case2 d err ih => simpa [Error.last] using ih
    | case3 e h1 h2 =>
      cases e with
      | werr m t b inner =>
        cases inner with
        | none => rfl
        | some err => exact absurd rfl (h1 m t b err)
      | ext d src =>
        cases src with
        | none => rfl
        | some err => exact absurd rfl (h2 d err)
  · intro e h
    cases e with
    | werr m t b inner => cases inner with
      | none => rfl
      | some err => simp [StdError.source] at h
    | ext d src => cases src with
      | none => rfl
      | some err => simp [StdError.source] at h
  · intro e s h
    cases e with
    | werr m t b inner => cases inner with
      | none => simp [StdError.source] at h
      | some err => cases h; rfl
    | ext d src => cases src with
      | none => simp [StdError.source] at h
      | some err => cases h; rfl

/-- Witness for C6 at concrete inputs: a single origin is its own
innermost cause, and a wrapped chain delegates to the wrapped node. -/
theorem innermost_cause_terminal_witness :
    Error.last (Error.raw "root" []) = Error.raw "root" []
    ∧ Error.last twoNodeChain = Error.last (Error.raw "root" []) :=
  ⟨innermost_cause_terminal.2.1 (Error.raw "root" []) rfl,
   innermost_cause_terminal.2.2 twoNodeChain (Error.raw "root" []) rfl⟩

/-- C3 counterexample: on the purely internal two-node chain (`ctx1`
wrapping origin `root`), `Error::ext` returns the innermost node (whose
message is `root`), not the outermost node itself as the claim states. -/
theorem first_external_cause_counterexample :
    Error.ext twoNodeChain ≠ twoNodeChain
    ∧ (Error.ext twoNodeChain).msg = "root" := by
  constructor
  · intro h
    have h2 := congrArg StdError.msg h
    simp [twoNodeChain, Error.ext, Error.wrapr, Error.raw, StdError.isWitcherError,
      StdError.msg, Error.name] at h2
  · rfl

/-- C3 amended: `Error::ext` walks the chain skipping chain-node links
and returns the first external (non-chain-node) cause found; if no
external cause exists it returns the last chain node (the innermost,
the very node `Error::last` returns); a single origin node returns
itself. The result is always either an external value or a node with no
further source. -/
theorem first_external_cause_characterization :
    (∀ m bt, Error.ext (Error.raw m bt) = Error.raw m bt)
    ∧ (∀ m tn bt (c : StdError),
        Error.ext (StdError.werr m tn bt (some c))
          = if c.isWitcherError then Error.ext c else c)
    ∧ (∀ e : StdError, allInternal e = true → Error.ext e = Error.last e)
    ∧ (∀ e : StdError,
        (Error.ext e).isWitcherError = false ∨ (Error.ext e).source = none) := by
  refine ⟨fun m bt => rfl, fun m tn bt c => rfl, ?_, ?_⟩
  · intro e h
    induction e using Error.ext.induct with
    | case1 m t b err hw ih =>
      simp [allInternal] at h
      cases err with
      | werr m2 t2 b2 i2 =>
        simp [Error.ext, Error.last, StdError.isWitcherError]
        exact ih h
      | ext d2 s2 => simp [allInternal] at h
    | case2 m t b err hw =>
      cases err with
      | werr m2 t2 b2 i2 => simp [StdError.isWitcherError] at hw
      | ext d2 s2 => simp [allInternal] at h
    | case3 d err hw ih => simp [allInternal] at h
    | case4 d err hw => simp [allInternal] at h
    | case5 e h1 h2 =>
      cases e with
      | werr m t b inner =>
        cases inner with
        | none => rfl
        | some err => exact absurd rfl (h1 m t b err)
      | ext d src => simp [allInternal] at h
  · intro e
    induction e using Error.ext.induct with
    | case1 m t b err hw ih =>
      simpa [Error.ext, hw] using ih
    | case2 m t b err hw =>
      simp [Error.ext, hw]
    | case3 d err hw ih =>
      simpa [Error.ext, hw] using ih
    | case4 d err hw =>
      simp [Error.ext, hw]
    | case5 e h1 h2 =>
      cases e with
      | werr m t b inner =>
        cases inner with
        | none => right; rfl
        | some err => exact absurd rfl (h1 m t b err)
      | ext d src =>
        cases src with
        | none => left; rfl
        | some err => exact absurd rfl (h2 d err)

/-- Witness for the amended C3 at concrete inputs: a single origin is
its own first external cause, and the internal two-node chain yields
the same node as `Error::last`. -/
theorem first_external_cause_characterization_witness :
    Error.ext (Error.raw "root" []) = Error.raw "root" []
    ∧ Error.ext twoNodeChain = Error.last twoNodeChain :=
  ⟨first_external_cause_characterization.1 "root" [],
   first_external_cause_characterization.2.2.1 twoNodeChain rfl⟩

/-- Appending a string that does not end in a newline to a string that
does not end in a newline yields a string that does not end in a
newline. -/
theorem endsWithNl_append_of (a m : String)
    (ha : endsWithNl a = false) (hm : endsWithNl m = false) :
    endsWithNl (a ++ m) = false := by
  unfold endsWithNl at *
  rw [String.data_append]
  cases hdm : m.data with
  | nil => simpa [hdm] using ha
  | cons c cs =>
    rw [List.getLast?_append_of_ne_nil _ (by simp [hdm])]
    rw [hdm] at hm
    exact hm

/-- A cause segment never ends in a newline when the message itself
does not. -/
theorem endsWithNl_cause (m : String) (hm : endsWithNl m = false) :
    endsWithNl ("\n cause: " ++ m) = false :=
  endsWithNl_append_of "\n cause: " m (by decide) hm

/-- The Display-alternate cause loop, started on a buffer not ending in
a newline, appends exactly one `"\n cause: "` segment per cause
message. -/
theorem displayAltLoop_characterization (o : Option StdError) :
    ∀ buf : String, endsWithNl buf = false →
      (∀ m ∈ causeMsgs o, endsWithNl m = false) →
      displayAltLoop buf o = buf ++ joinCauses (causeMsgs o) := by
  induction o using causeMsgs.induct with
  | case1 =>
    intro buf _ _
    simp [displayAltLoop, causeMsgs, joinCauses]
  | case2 m t b inner ih =>
    intro buf hnl hall
    rw [causeMsgs] at hall ⊢
    rw [List.forall_mem_cons] at hall
    rw [displayAltLoop, if_neg (by simp [hnl])]
    rw [joinCauses]
    have hstep : (buf ++ "\n") ++ " cause: " ++ m = buf ++ ("\n cause: " ++ m) := by
      rw [String.append_assoc, String.append_assoc]
      rfl
    rw [hstep]
    rw [ih (buf ++ ("\n cause: " ++ m))
      (endsWithNl_append_of buf _ hnl (endsWithNl_cause m hall.1)) hall.2]
    rw [String.append_assoc]
  | case3 d src ih =>
    intro buf hnl hall
    rw [causeMsgs] at hall ⊢
    rw [List.forall_mem_cons] at hall
    rw [displayAltLoop, if_neg (by simp [hnl])]
    rw [joinCauses]
    have hstep : (buf ++ "\n") ++ " cause: " ++ d = buf ++ ("\n cause: " ++ d) := by
      rw [String.append_assoc, String.append_assoc]
      rfl
    rw [hstep]
    rw [ih (buf ++ ("\n cause: " ++ d))
      (endsWithNl_append_of buf _ hnl (endsWithNl_cause d hall.1)) hall.2]
    rw [String.append_assoc]

/-- C1 counterexample: on the chain `root` wrapped by `ctx1` wrapped by
`ctx2`, the Summarized rendering is
`" error: ctx2\n cause: ctx1\n cause: root"`, not the claimed
`" error: ctx2\n error: ctx1\n error: root"`: inner chain-node links
print as `" cause: "` lines, so there is one `" error: "` line in
total, not one per link. -/
theorem summarized_claim_counterexample :
    displayAlt scenarioChain = " error: ctx2\n cause: ctx1\n cause: root"
    ∧ displayAlt scenarioChain ≠ " error: ctx2\n error: ctx1\n error: root" := by
  have h : displayAlt scenarioChain = " error: ctx2\n cause: ctx1\n cause: root" := by
    simp [displayAlt, scenarioChain, Error.wrapr, Error.raw, Error.name, dropDyn,
      StdError.msg, StdError.source, displayAltLoop, endsWithNl]
  refine ⟨h, ?_⟩
  rw [h]
  decide

/-- C1 amended: for every chain whose messages do not end in a newline,
the Summarized rendering is exactly one `" error: "`-prefixed line
holding the outermost node's message, followed by one `" cause: "` line
per remaining cause link — chain nodes and external causes alike, in
outer-to-inner order, each showing that link's message or display
string. (The spec's claim of one `" error: "` line per link, with
`" cause: "` lines reserved for external causes, does not match the
code.) -/
theorem summarized_rendering_shape :
    ∀ (m0 tn : String) (bt : List Frame) (inner : Option StdError),
      endsWithNl m0 = false →
      (∀ m ∈ causeMsgs inner, endsWithNl m = false) →
      displayAlt (StdError.werr m0 tn bt inner)
        = " error: " ++ m0 ++ joinCauses (causeMsgs inner) := by
  intro m0 tn bt inner h0 hall
  show displayAltLoop (" error: " ++ m0) inner = _
  rw [displayAltLoop_characterization inner (" error: " ++ m0)
    (endsWithNl_append_of " error: " m0 (by decide) h0) hall]

/-- Witness for the amended C1 on the spec's own three-node scenario. -/
theorem summarized_rendering_shape_witness :
    displayAlt scenarioChain
      = " error: " ++ "ctx2"
        ++ joinCauses (causeMsgs (some
            (Error.wrapr "&witcher::error::Error" "ctx1" [] (Error.raw "root" [])))) :=
  summarized_rendering_shape "ctx2" (Error.name "&witcher::error::Error") []
    (some (Error.wrapr "&witcher::error::Error" "ctx1" [] (Error.raw "root" [])))
    (by decide)
    (by simp [causeMsgs, Error.wrapr, Error.raw, endsWithNl])

/-- The retry loop leaves a non-error (or budget-exhausted) state
untouched and performs no invocation. -/
theorem retryGo_stop {ε α : Type} (f : Nat → Except ε α) (left retries : Nat)
    (r : Except ε α) (h : isErr r = false) :
    Wrapper.retryGo f left retries r = r
      ∧ Wrapper.retryCallsGo f left retries r = [] := by
  cases left with
  | zero => exact ⟨rfl, rfl⟩
  | succ n => simp [Wrapper.retryGo, Wrapper.retryCallsGo, h]

/-- If attempts `retries+1 .. j-1` fail and attempt `j` succeeds (with
`j` inside the budget), the retry loop returns `f j` having invoked
exactly attempts `retries+1 .. j`. -/
theorem retryGo_success {ε α : Type} (f : Nat → Except ε α) :
    ∀ left retries j : Nat, retries < j → j ≤ retries + left →
      (∀ k, retries < k → k < j → isErr (f k) = true) → isErr (f j) = false →
      ∀ r : Except ε α, isErr r = true →
      Wrapper.retryGo f left retries r = f j
        ∧ Wrapper.retryCallsGo f left retries r = List.range' (retries + 1) (j - retries) := by
  intro left
  induction left with
  | zero => intro retries j h1 h2 _ _ _ _; omega
  | succ n ih =>
    intro retries j h1 h2 hbefore hj r hr
    rw [Wrapper.retryGo, Wrapper.retryCallsGo, if_pos hr, if_pos hr]
    by_cases hje : j = retries + 1
    · subst hje
      have hstop := retryGo_stop f n (retries + 1) (f (retries + 1)) hj
      rw [hstop.1, hstop.2]
      have hone : retries + 1 - retries = 1 := by omega
      rw [hone]
      exact ⟨rfl, rfl⟩
    · have hlt : retries + 1 < j := by omega
      have hrec := ih (retries + 1) j hlt (by omega)
        (fun k hk1 hk2 => hbefore k (by omega) hk2) hj
        (f (retries + 1)) (hbefore (retries + 1) (by omega) hlt)
      refine ⟨hrec.1, ?_⟩
      rw [hrec.2]
      have hsplit : j - retries = (j - (retries + 1)) + 1 := by omega
      rw [hsplit, List.range'_succ]

/-- If every attempt inside the budget fails, the retry loop runs the
budget down and returns the last attempt's failure, having invoked
exactly attempts `retries+1 .. retries+left`. -/
theorem retryGo_exhaust {ε α : Type} (f : Nat → Except ε α) :
    ∀ left retries : Nat, 0 < left →
      (∀ k, retries < k → k ≤ retries + left → isErr (f k) = true) →
      ∀ r : Except ε α, isErr r = true →
      Wrapper.retryGo f left retries r = f (retries + left)
        ∧ Wrapper.retryCallsGo f left retries r = List.range' (retries + 1) left := by
  intro left
  induction left with
  | zero => intro retries h; omega
  | succ n ih =>
    intro retries _ hall r hr
    rw [Wrapper.retryGo, Wrapper.retryCallsGo, if_pos hr, if_pos hr]
    cases Nat.eq_zero_or_pos n with
    | inl hz =>
      subst hz
      exact ⟨by rw [Wrapper.retryGo], by rw [Wrapper.retryCallsGo, List.range'_one]⟩
    | inr hpos =>
      have hrec := ih (retries + 1) hpos
        (fun k hk1 hk2 => hall k (by omega) (by omega))
        (f (retries + 1)) (hall (retries + 1) (by omega) (by omega))
      refine ⟨?_, ?_⟩
      · rw [hrec.1]
        exact congrArg f (by omega)
      · rw [hrec.2, List.range'_succ]

/-- C5: `retry` replaces the result with `op(attempt)` while it is a
failure and budget remains, numbering attempts from 1: a zero budget
returns the result unchanged with no invocation; a success is returned
unchanged; if attempts `1..j-1` fail and attempt `j ≤ max` succeeds the
loop stops there, returning `f j` after invoking exactly attempts
`1..j`; if every attempt in the budget fails it returns the last-seen
failure `f max` unchanged after invoking exactly attempts `1..max`. -/
theorem retry_loop_spec :
    ∀ (ε α : Type) (f : Nat → Except ε α) (r : Except ε α) (e : ε) (a : α) (max : Nat),
      (Wrapper.retry r 0 f = r ∧ Wrapper.retryCalls r 0 f = [])
      ∧ Wrapper.retry (Except.ok a) max f = Except.ok a
      ∧ (∀ j, 1 ≤ j → j ≤ max →
          (∀ k, 1 ≤ k → k < j → isErr (f k) = true) → isErr (f j) = false →
          Wrapper.retry (Except.error e) max f = f j
            ∧ Wrapper.retryCalls (Except.error e) max f = List.range' 1 j)
      ∧ ((∀ k, 1 ≤ k → k ≤ max → isErr (f k) = true) → 0 < max →
          Wrapper.retry (Except.error e) max f = f max
            ∧ Wrapper.retryCalls (Except.error e) max f = List.range' 1 max) := by
  intro ε α f r e a max
  refine ⟨⟨rfl, rfl⟩, (retryGo_stop f max 0 (Except.ok a) rfl).1, ?_, ?_⟩
  · intro j h1 h2 hbefore hj
    have h := retryGo_success f max 0 j (by omega) (by omega)
      (fun k hk1 hk2 => hbefore k (by omega) hk2) hj (Except.error e) rfl
    simpa [Wrapper.retry, Wrapper.retryCalls] using h
  · intro hall hpos
    have h := retryGo_exhaust f max 0 hpos
      (fun k hk1 hk2 => hall k (by omega) (by omega)) (Except.error e) rfl
    simpa [Wrapper.retry, Wrapper.retryCalls] using h

/-- Witness for C5 at concrete inputs: with an operation that fails on
attempt 1 and succeeds on attempt 2, a budget of 0 returns the original
failure without invoking the operation, and a budget of 3 stops at the
success `f 2` having invoked attempts 1 and 2. -/
theorem retry_loop_spec_witness :
    Wrapper.retry (Except.error (7 : Nat)) 0 (fun k => if k ≤ 1 then Except.error 7 else Except.ok (5 : Nat))
      = Except.error 7
    ∧ Wrapper.retry (Except.error (7 : Nat)) 3 (fun k => if k ≤ 1 then Except.error 7 else Except.ok (5 : Nat))
      = (fun k => if k ≤ 1 then Except.error (7 : Nat) else Except.ok (5 : Nat)) 2
    ∧ Wrapper.retryCalls (Except.error (7 : Nat)) 3 (fun k => if k ≤ 1 then Except.error 7 else Except.ok (5 : Nat))
      = List.range' 1 2 := by
  have h := retry_loop_spec Nat Nat
    (fun k => if k ≤ 1 then Except.error 7 else Except.ok (5 : Nat))
    (Except.error 7) 7 5 3
  have h2 := h.2.2.1 2 (by omega) (by omega)
    (by intro k hk1 hk2; interval_cases k; rfl) (by rfl)
  have h0 := retry_loop_spec Nat Nat
    (fun k => if k ≤ 1 then Except.error 7 else Except.ok (5 : Nat))
    (Except.error 7) 7 5 0
  exact ⟨h0.1.1, h2.1, h2.2⟩

/-- On a mismatched type id the `retry_on` guard is false for every
result, so the loop stops at once. -/
theorem retryOnGo_ne {ε α : Type} (eid id : TypeId) (f : Nat → Except ε α)
    (hne : eid ≠ id) (left retries : Nat) (r : Except ε α) :
    Wrapper.retryOnGo eid id f left retries r = r
      ∧ Wrapper.retryOnCallsGo eid id f left retries r = [] := by
  cases left with
  | zero => exact ⟨rfl, rfl⟩
  | succ n =>
    cases r with
    | ok v => simp [Wrapper.retryOnGo, Wrapper.retryOnCallsGo]
    | error v => simp [Wrapper.retryOnGo, Wrapper.retryOnCallsGo, hne]

/-- On a matching type id the `retry_on` guard coincides with
`is_err`, so the loop is exactly the `retry` loop. -/
theorem retryOnGo_eq_retryGo {ε α : Type} (eid id : TypeId) (f : Nat → Except ε α)
    (heq : eid = id) :
    ∀ left retries (r : Except ε α),
      Wrapper.retryOnGo eid id f left retries r = Wrapper.retryGo f left retries r
        ∧ Wrapper.retryOnCallsGo eid id f left retries r
            = Wrapper.retryCallsGo f left retries r := by
  subst heq
  intro left
  induction left with
  | zero => intro retries r; exact ⟨rfl, rfl⟩
  | succ n ih =>
    intro retries r
    cases r with
    | ok v =>
      simp [Wrapper.retryOnGo, Wrapper.retryOnCallsGo, Wrapper.retryGo,
        Wrapper.retryCallsGo, isErr]
    | error v =>
      simp only [Wrapper.retryOnGo, Wrapper.retryOnCallsGo, Wrapper.retryGo,
        Wrapper.retryCallsGo, isErr, beq_self_eq_true, if_true]
      refine ⟨(ih (retries + 1) (f (retries + 1))).1, ?_⟩
      rw [(ih (retries + 1) (f (retries + 1))).2]

/-- C4: `retry_on` retries (invoking the operation with attempt numbers
1, 2, ...) only while the result is a failure whose concrete type — the
result's error type `E` — matches the target id, and budget remains: a
failure of a different type is returned as-is with no invocation at
all; a success is returned as-is; and when the types match and every
attempt fails, a budget of `max > 0` performs exactly the attempts
`1..max` and returns the final failure `f max`. -/
theorem retry_on_spec :
    ∀ (ε α : Type) (eid id : TypeId) (f : Nat → Except ε α) (e : ε) (a : α) (max : Nat),
      (eid ≠ id →
        Wrapper.retry_on (Except.error e) max eid id f = Except.error e
          ∧ Wrapper.retryOnCalls (Except.error e) max eid id f = [])
      ∧ Wrapper.retry_on (Except.ok a) max eid id f = Except.ok a
      ∧ (eid = id → (∀ k, 1 ≤ k → k ≤ max → isErr (f k) = true) → 0 < max →
          Wrapper.retry_on (Except.error e) max eid id f = f max
            ∧ Wrapper.retryOnCalls (Except.error e) max eid id f = List.range' 1 max) := by
  intro ε α eid id f e a max
  refine ⟨?_, ?_, ?_⟩
  · intro hne
    exact retryOnGo_ne eid id f hne max 0 (Except.error e)
  · cases max with
    | zero => rfl
    | succ n => simp [Wrapper.retry_on, Wrapper.retryOnGo]
  · intro heq hall hpos
    have hbr := retryOnGo_eq_retryGo eid id f heq max 0 (Except.error e)
    have h := retryGo_exhaust f max 0 hpos
      (fun k hk1 hk2 => hall k (by omega) (by omega)) (Except.error e) rfl
    constructor
    · rw [Wrapper.retry_on, hbr.1]
      simpa using h.1
    · rw [Wrapper.retryOnCalls, hbr.2]
      simpa using h.2

/-- Witness for C4 at concrete inputs: the spec's retry scenario with
`max = 3` and an always-failing operation of the matching type performs
exactly attempts 1, 2, 3 and returns the final failure, while a
mismatched type id returns the original failure with no invocation. -/
theorem retry_on_spec_witness :
    Wrapper.retry_on ((Except.error 7 : Except Nat Nat)) 3 0 1 (fun _ => Except.error 7)
      = Except.error 7
    ∧ Wrapper.retryOnCalls ((Except.error 7 : Except Nat Nat)) 3 0 1 (fun _ => Except.error 7) = []
    ∧ Wrapper.retry_on ((Except.error 7 : Except Nat Nat)) 3 0 0 (fun _ => Except.error 7)
      = (fun _ => (Except.error 7 : Except Nat Nat)) 3
    ∧ Wrapper.retryOnCalls ((Except.error 7 : Except Nat Nat)) 3 0 0 (fun _ => Except.error 7)
      = List.range' 1 3 := by
  have hne := (retry_on_spec Nat Nat 0 1 (fun _ => Except.error 7) 7 5 3).1 (by decide)
  have hm := (retry_on_spec Nat Nat 0 0 (fun _ => Except.error 7) 7 5 3).2.2 rfl
    (fun k h1 h2 => rfl) (by decide)
  exact ⟨hne.1, hne.2, hm.1, hm.2⟩

/-- Dropping leading ampersands leaves a list whose head is not an
ampersand unchanged. -/
theorem dropWhile_amp_of_head (l : List Char) (h : l.head? ≠ some '&') :
    l.dropWhile (fun c => c = '&') = l := by
  cases l with
  | nil => rfl
  | cons c cs =>
    rw [List.dropWhile_cons]
    have hc : ¬ c = '&' := by
      intro hc
      exact h (by rw [hc]; rfl)
    simp [hc]

/-- The sigil-stripping step swallows a leading ampersand. -/
theorem stripRefSigils_amp (s : String) :
    stripRefSigils ("&" ++ s) = stripRefSigils s := by
  unfold stripRefSigils
  congr 1

/-- C7: a wrap node's `type_label` is `Error::name` of the wrapped
cause's type-name string, and an origin node carries the canonical
self label; `Error::name` is exactly the spec's normalization pipeline
(sigil strip, `dyn ` marker strip, generic-suffix strip, canonical
short-name substitution), it absorbs a leading reference sigil, it
absorbs a leading `dyn ` marker, it collapses the crate's long path to
the canonical short label, and it maps the erased any-error type to the
standard error label. -/
theorem type_label_normalization :
    (∀ m bt, (Error.raw m bt).type_name = ERROR_TYPE)
    ∧ (∀ tn m bt (c : StdError), (Error.wrapr tn m bt c).type_name = Error.name tn)
    ∧ (∀ s, Error.name s = normalizeSpec s)
    ∧ (∀ s, Error.name ("&" ++ s) = Error.name s)
    ∧ (∀ s, s.data.head? ≠ some '&' → Error.name ("dyn " ++ s) = Error.name s)
    ∧ Error.name LONG_ERROR_TYPE = ERROR_TYPE
    ∧ Error.name "dyn std::error::Error" = STDERROR_TYPE := by
  have hspec : ∀ s, Error.name s = normalizeSpec s := fun s => rfl
  refine ⟨fun m bt => rfl, fun tn m bt c => rfl, hspec, ?_, ?_, by decide, by decide⟩
  · intro s
    rw [hspec, hspec]
    unfold normalizeSpec
    rw [stripRefSigils_amp]
  · intro s h
    rw [hspec, hspec]
    unfold normalizeSpec
    have hlit : ("dyn " : String).data = ['d', 'y', 'n', ' '] := by decide
    have hdata : ("dyn " ++ s).data = 'd' :: 'y' :: 'n' :: ' ' :: s.data := by
      rw [String.data_append, hlit]
      rfl
    have h1 : stripRefSigils ("dyn " ++ s) = "dyn " ++ s := by
      have hd : ("dyn " ++ s).data.dropWhile (fun c => c = '&') = ("dyn " ++ s).data := by
        apply dropWhile_amp_of_head
        rw [hdata]
        simp
      unfold stripRefSigils
      rw [hd]
    have h2 : stripRefSigils s = s := by
      unfold stripRefSigils
      rw [dropWhile_amp_of_head _ h]
    rw [h1, h2]
    have h3 : stripDynMarker ("dyn " ++ s) = stripDynMarker s := by
      unfold stripDynMarker
      congr 1
    rw [h3]

/-- Witness for C7 at concrete inputs: the reference sigil and the
`dyn ` marker of concrete type names are absorbed. -/
theorem type_label_normalization_witness :
    Error.name ("&" ++ "std::io::Error") = Error.name "std::io::Error"
    ∧ Error.name ("dyn " ++ "std::error::Error") = Error.name "std::error::Error" :=
  ⟨type_label_normalization.2.2.2.1 "std::io::Error",
   type_label_normalization.2.2.2.2.1 "std::error::Error" (by decide)⟩


/-- With the fullstack toggle off and a wrapping parent present, the
frame selection is the guarded filtered-take of `write_frames`
(definitional unfolding at the literal toggle value). -/
theorem framesSelection_some_parent (bt pbt : List Frame) :
    framesSelection bt (some pbt) false
      = (if (bt.filter (fun x => !x.is_dependency)).length
            < (pbt.filter (fun x => !x.is_dependency)).length
         then none
         else some ((bt.filter (fun x => !x.is_dependency)).take
            ((bt.filter (fun x => !x.is_dependency)).length
              - (pbt.filter (fun x => !x.is_dependency)).length))) := rfl

/-- With the fullstack toggle off and no parent, the selection keeps
exactly the non-dependency frames. -/
theorem framesSelection_none_parent (bt : List Frame) :
    framesSelection bt none false = some (bt.filter (fun x => !x.is_dependency)) := rfl

/-- With the fullstack toggle on, every frame is kept unfiltered. -/
theorem framesSelection_full (bt : List Frame) (parent : Option (List Frame)) :
    framesSelection bt parent true = some bt := rfl

/-- C8: in Full (debug) rendering, with the fullstack toggle active
every frame of every link is kept unfiltered; without it, a link with
no wrapping parent keeps exactly its non-dependency frames, and a link
whose non-dependency frames extend its parent's (as a suffix) keeps
exactly the frames unique to its wrap site; a dependency frame never
appears in filtered output. -/
theorem full_rendering_frames :
    (∀ bt parent, framesSelection bt parent true = some bt)
    ∧ (∀ bt, framesSelection bt none false
        = some (bt.filter (fun x => !x.is_dependency)))
    ∧ (∀ bt pbt uniq : List Frame,
        bt.filter (fun x => !x.is_dependency)
            = uniq ++ pbt.filter (fun x => !x.is_dependency) →
        framesSelection bt (some pbt) false = some uniq)
    ∧ (∀ (fr : Frame) (bt : List Frame), fr.is_dependency = true →
        fr ∉ bt.filter (fun x => !x.is_dependency)) := by
  refine ⟨framesSelection_full, framesSelection_none_parent, ?_, ?_⟩
  · intro bt pbt uniq h
    rw [framesSelection_some_parent, h, List.length_append]
    rw [if_neg (by omega)]
    have hlen : uniq.length + (pbt.filter (fun x => !x.is_dependency)).length
        - (pbt.filter (fun x => !x.is_dependency)).length = uniq.length := by omega
    rw [hlen, List.take_left]
  · intro fr bt h hmem
    rw [List.mem_filter, h] at hmem
    simp at hmem

/-- Witness for C8 at concrete inputs: a two-frame inner backtrace
sharing its second frame with the one-frame parent keeps only its
unique first frame, and a `std::` runtime frame is dropped from
filtered output. -/
theorem full_rendering_frames_witness :
    framesSelection [appFrameOuter, appFrameInner] (some [appFrameInner]) false
      = some [appFrameOuter]
    ∧ depFrame ∉ [appFrameOuter, depFrame].filter (fun x => !x.is_dependency) :=
  ⟨full_rendering_frames.2.2.1 [appFrameOuter, appFrameInner] [appFrameInner]
      [appFrameOuter] (by decide),
   full_rendering_frames.2.2.2 depFrame [appFrameOuter, depFrame] (by decide)⟩

/-- C9: a frame file path inside the current working directory is
stored relative to it; a path outside it is stored as given; a missing
path becomes the `<unknown>` sentinel; a missing symbol name likewise
becomes the sentinel, never a failure. -/
theorem frame_path_simplification :
    (∀ cwd, simple_path cwd none = "<unknown>")
    ∧ (∀ c rest, simple_path (some c) (some (c ++ rest)) = pathDisplay rest)
    ∧ (∀ c file, c.isPrefixOf file = false →
        simple_path (some c) (some file) = pathDisplay file)
    ∧ (∀ file, simple_path none (some file) = pathDisplay file)
    ∧ (∀ cwd file ln col,
        (backtraceFrame none cwd file ln col).symbol = "<unknown>"
        ∧ (backtraceFrame none cwd file ln col).filename = simple_path cwd file)
    ∧ (∀ n cwd file ln col, (backtraceFrame (some n) cwd file ln col).symbol = n) := by
  refine ⟨fun cwd => rfl, ?_, ?_, fun file => rfl, fun cwd file ln col => ⟨rfl, rfl⟩,
    fun n cwd file ln col => rfl⟩
  · intro c rest
    have hpre : c.isPrefixOf (c ++ rest) = true :=
      List.isPrefixOf_iff_prefix.mpr (List.prefix_append c rest)
    simp only [simple_path, hpre, if_true]
    rw [List.drop_left]
  · intro c file h
    simp only [simple_path, h]
    rfl

/-- Witness for C9 at concrete inputs: a path under the working
directory becomes relative, one outside it stays as given. -/
theorem frame_path_simplification_witness :
    simple_path (some ["home", "user", "proj"])
        (some (["home", "user", "proj"] ++ ["src2", "main.rs"]))
      = pathDisplay ["src2", "main.rs"]
    ∧ simple_path (some ["home", "user", "proj"]) (some ["etc", "hosts"])
      = pathDisplay ["etc", "hosts"] :=
  ⟨frame_path_simplification.2.1 ["home", "user", "proj"] ["src2", "main.rs"],
   frame_path_simplification.2.2.1 ["home", "user", "proj"] ["etc", "hosts"] (by decide)⟩

/-- The per-list form of C10: the Debug loop's `write_frames` calls all
avoid the underflow exactly when, walking the reversed (innermost-
first) node list, each node has at least as many non-dependency frames
as the next entry (its wrapper). -/
theorem debugWriteOk_iff (L : List StdError) :
    debugWriteOk L = true
      ↔ List.Chain' (fun a b => nondepCount b ≤ nondepCount a) L := by
  induction L using debugWriteOk.induct with
  | case1 e p rest ih =>
    rw [debugWriteOk, List.chain'_cons, Bool.and_eq_true, ih]
    have hwf : Error.write_frames e (some p) false
        = framesSelection e.backtrace (some p.backtrace) false := rfl
    rw [hwf, framesSelection_some_parent]
    unfold nondepCount
    by_cases hlt : (e.backtrace.filter (fun x => !x.is_dependency)).length
        < (p.backtrace.filter (fun x => !x.is_dependency)).length
    · rw [if_pos hlt]
      constructor
      · intro hx
        simp at hx
      · intro hx
        exact absurd hx.1 (by omega)
    · rw [if_neg hlt]
      simp only [Option.isSome_some]
      constructor
      · intro hx
        exact ⟨by omega, hx.2⟩
      · intro hx
        exact ⟨by trivial, hx.2⟩
  | case2 e =>
    simp [show debugWriteOk [e] = true from rfl, List.chain'_singleton]
  | case3 =>
    simp [debugWriteOk]

/-- C10: the Debug rendering computes each wrapped node's printed frame
count by the unguarded `usize` subtraction `len - plen`, which
underflows exactly when that node has fewer non-dependency frames than
its wrapper; the whole rendering (without the fullstack toggle) is free
of underflow precisely when, for every adjacent pair of the chain, the
wrapped inner node has at least as many non-dependency frames as the
node wrapping it; with the fullstack toggle the selection is total. -/
theorem debug_frame_underflow_precondition :
    (∀ bt pbt, (framesSelection bt (some pbt) false = none)
        ↔ (bt.filter (fun x => !x.is_dependency)).length
            < (pbt.filter (fun x => !x.is_dependency)).length)
    ∧ (∀ bt parent, (framesSelection bt parent true).isSome = true)
    ∧ (∀ e : StdError, debugRenderOk e = true
        ↔ List.Chain' (fun outerN innerN => nondepCount outerN ≤ nondepCount innerN)
            (chainNodes e)) := by
  refine ⟨?_, fun bt parent => rfl, ?_⟩
  · intro bt pbt
    rw [framesSelection_some_parent]
    by_cases hlt : (bt.filter (fun x => !x.is_dependency)).length
        < (pbt.filter (fun x => !x.is_dependency)).length
    · rw [if_pos hlt]
      simp [hlt]
    · rw [if_neg hlt]
      simp [hlt]
  · intro e
    rw [debugRenderOk, debugWriteOk_iff, List.chain'_reverse]
    rfl

/-- Witness for C10 at concrete inputs: a wrapper with one
non-dependency frame around a node with none underflows (the selection
signals the panic), while the fullstack toggle keeps selection total. -/
theorem debug_frame_underflow_precondition_witness :
    framesSelection [] (some [appFrameOuter]) false = none
    ∧ (framesSelection [appFrameOuter] (some []) true).isSome = true :=
  ⟨(debug_frame_underflow_precondition.1 [] [appFrameOuter]).mpr (by decide),
   debug_frame_underflow_precondition.2.1 [appFrameOuter] (some [])⟩

end Witcher
